import Mathlib

/-!
Verification development for the Shaco job-tracker core
(`modules/job_tracker.py` and the job branch of `shaco_core/main.py`).

The Python code is shallowly embedded: pure helpers become Lean
functions, the on-disk store becomes an explicit map from file paths to
optional file contents, and Python exceptions become `Except` results.
Library functions from the Python standard library that the code calls
(`json.load`/`json.dump`, `difflib`, `pathlib`, `str` methods) are
modelled at the granularity the claims need; each model carries a doc
comment saying what fragment of the library behaviour it captures.
-/

namespace Shaco

/-! ## Modelled fragments of Python string primitives -/

/-- Characters stripped by `str.strip()`: the ASCII whitespace
characters.  Python additionally strips some non-ASCII Unicode
whitespace, which no theorem below depends on. -/
def isPySpace (c : Char) : Bool :=
  c == ' ' || c == '\t' || c == '\n' || c == '\r' || c == '\x0b' || c == '\x0c'

/-- Model of `str.strip()`: drop leading and trailing whitespace. -/
def pyStrip (s : String) : String :=
  String.mk (((s.data.dropWhile isPySpace).reverse.dropWhile isPySpace).reverse)

/-- Model of `str.lower()`: ASCII case folding.  Python also folds
non-ASCII letters; no theorem below depends on the difference. -/
def pyLower (s : String) : String :=
  String.mk (s.data.map Char.toLower)

/-- Modelled fragment of `str.isdigit` on a single character: exact on
ASCII; of the non-ASCII characters that Python classifies as digits
(Unicode property Numeric_Type=Digit) we include the superscript digits
U+00B9, U+00B2, U+00B3, which Python counts as digits even though
`int()` rejects them.  Other non-ASCII digit characters are modelled as
non-digits; the theorems below either restrict to ASCII input or
evaluate at characters this table covers. -/
def pyIsDigitChar (c : Char) : Bool :=
  c.isDigit || c == '¹' || c == '²' || c == '³'

/-- Model of `str.isdigit()`: non-empty and every character a digit. -/
def pyIsDigitStr (s : String) : Bool :=
  !s.isEmpty && s.data.all pyIsDigitChar

/-- Numeric value of a list of ASCII decimal digits, as computed by
`int()` on such a string. -/
def decVal (l : List Char) : Nat :=
  l.foldl (fun acc c => acc * 10 + (c.toNat - '0'.toNat)) 0

/-- Strict lexicographic order on character lists by code point, the
order Python uses to compare strings. -/
def charListLt : List Char → List Char → Bool
  | [], [] => false
  | [], _ :: _ => true
  | _ :: _, [] => false
  | a :: as, b :: bs =>
    if a.val < b.val then true
    else if b.val < a.val then false
    else charListLt as bs

/-- Python string comparison `a < b`. -/
def strLt (a b : String) : Bool :=
  charListLt a.data b.data

/-! ## Modelled fragment of `difflib`

`normalize_status` calls `difflib.get_close_matches(s, DEFAULT_STATUSES,
n=1, cutoff=0.6)`.  `SequenceMatcher` ratios are `2*M/T` where `M` is
the total size of the matching blocks found by recursively taking the
longest matching block, and `T` is the sum of the two lengths.  The
junk/autojunk machinery of `SequenceMatcher` is inactive here: no
`isjunk` is passed and autojunk only triggers for second sequences of
length at least 200, a regime no theorem below depends on. -/

/-- Length of the longest common prefix of two character lists. -/
def commonPrefixLen : List Char → List Char → Nat
  | a :: as, b :: bs => if a = b then commonPrefixLen as bs + 1 else 0
  | _, _ => 0

/-- Model of `SequenceMatcher.find_longest_match` over whole sequences
(no junk): returns `(i, j, k)` with `a[i:i+k] = b[j:j+k]`, `k` maximal,
and among maximal blocks the one starting earliest in `a`, then earliest
in `b` — the behaviour documented by difflib. -/
def findLongestMatch (a b : List Char) : Nat × Nat × Nat :=
  (List.range a.length).foldl (fun best i =>
    (List.range b.length).foldl (fun best j =>
      let k := commonPrefixLen (a.drop i) (b.drop j)
      if k > best.2.2 then (i, j, k) else best) best) (0, 0, 0)

/-- Model of the total matched size `M` underlying
`SequenceMatcher.ratio`: size of the longest matching block plus,
recursively, the matched sizes of the regions to its left and right
(this is how `get_matching_blocks` accumulates blocks).  The `fuel`
argument bounds the recursion depth; every recursive call strictly
shrinks the first sequence, so `a.length + 1` fuel is always enough. -/
def matchTotal : Nat → List Char → List Char → Nat
  | 0, _, _ => 0
  | fuel + 1, a, b =>
    let r := findLongestMatch a b
    let i := r.1
    let j := r.2.1
    let k := r.2.2
    if k = 0 then 0
    else matchTotal fuel (a.take i) (b.take j) + k +
         matchTotal fuel (a.drop (i + k)) (b.drop (j + k))

/-- Ratio numerator `M` for the pair `(x, word)` as `SequenceMatcher`
with `seq1 = x`, `seq2 = word` computes it. -/
def ratioM (x word : String) : Nat :=
  matchTotal (x.data.length + 1) x.data word.data

/-- Candidate record for `get_close_matches`: the matched size `M`, the
total length `T`, and the candidate string. -/
abbrev Cand := Nat × Nat × String

/-- Comparison `get_close_matches` uses to keep the best scored
candidate: larger ratio `2*M/T` first (compared exactly, by
cross-multiplication), ties broken by Python string order (larger
string wins), as the tuple comparison inside `heapq.nlargest` does. -/
def candBetter (c b : Cand) : Bool :=
  (b.1 * c.2.1 < c.1 * b.2.1) ||
  ((c.1 * b.2.1) == (b.1 * c.2.1) && strLt b.2.2 c.2.2)

/-- Keep the best candidate of a list, scanning left to right. -/
def chooseBest : Option Cand → List Cand → Option Cand
  | acc, [] => acc
  | none, c :: rest => chooseBest (some c) rest
  | some b, c :: rest => chooseBest (some (if candBetter c b then c else b)) rest

/-- Model of `difflib.get_close_matches(word, poss, n=1, cutoff=0.6)`,
returning the single best candidate if any passes the cutoff.  The
cutoff test `ratio >= 0.6` is `2*M/T >= 3/5`, i.e. `3*T <= 10*M`
(the `quick_ratio` pre-filters are upper bounds on `ratio`, so they
never reject a candidate the final test accepts). -/
def getCloseMatches1 (word : String) (poss : List String) : Option String :=
  let cands := poss.filterMap (fun x =>
    let m := ratioM x word
    let t := x.data.length + word.data.length
    if 3 * t ≤ 10 * m then some ((m, t, x) : Cand) else none)
  (chooseBest none cands).map (fun c => c.2.2)

/-! ## Status normalization (`job_tracker.normalize_status`) -/

/-- The `DEFAULT_STATUSES` list of `job_tracker.py`. -/
def DEFAULT_STATUSES : List String :=
  ["applied", "interviewing", "offer", "accepted", "rejected", "withdrawn", "todo"]

/-- The alias `mapping` dict inside `normalize_status`, as a lookup
function (the dict keys are distinct, so first-match lookup is exact). -/
def aliasLookup (t : String) : Option String :=
  if t = "int" then some "interviewing"
  else if t = "interview" then some "interviewing"
  else if t = "appl" then some "applied"
  else if t = "rej" then some "rejected"
  else if t = "acc" then some "accepted"
  else if t = "off" then some "offer"
  else if t = "todo" then some "todo"
  else none

/-- Embedding of `job_tracker.normalize_status`: trim and lowercase,
then exact match, then alias table, then fuzzy match, then the
fallback `"applied"`. -/
def normalize_status (s : String) : String :=
  let t := pyLower (pyStrip s)
  if t ∈ DEFAULT_STATUSES then t
  else
    match aliasLookup t with
    | some v => v
    | none =>
      match getCloseMatches1 t DEFAULT_STATUSES with
      | some c => c
      | none => "applied"

/-! ## Job records and the file-system model -/

/-- The `Job` dataclass of `job_tracker.py`.  `updated_at` holds the
ISO-8601 timestamp string set by `touch()`; timestamps and fresh uuid4
identifiers are nondeterministic in the source and enter the embedding
as explicit arguments. -/
structure Job where
  id : String
  role : String
  company : String
  status : String
  updated_at : String
deriving DecidableEq

/-- A persisted file path, decomposed as `pathlib` does into the parent
directory and the final component.  `with_suffix` rewrites only the
final component, so the parent is shared verbatim. -/
structure StorePath where
  dir : String
  name : String
deriving DecidableEq

/-- The file system as a map from paths to optional file contents
(directories are not modelled; `_ensure_data_path` only creates the
parent directory). -/
def Fs : Type := StorePath → Option String

/-- Write `content` at path `p`. -/
def fsWrite (fs : Fs) (p : StorePath) (content : String) : Fs :=
  fun q => if q = p then some content else fs q

/-- Model of `os.replace(src, dst)`: `dst` receives the content of
`src` in one atomic step and `src` disappears. -/
def fsReplace (fs : Fs) (src dst : StorePath) : Fs :=
  fun q => if q = dst then fs src else if q = src then none else fs q

/-- Rightmost index of `c` in `l`, the value of `str.rfind` (as an
`Option` instead of `-1`). -/
def rfindIdx (c : Char) (l : List Char) : Option Nat :=
  (l.foldl (fun (acc : Nat × Option Nat) x =>
    (acc.1 + 1, if x = c then some acc.1 else acc.2)) (0, none)).2

/-- Model of `PurePath.with_suffix(".tmp")` on the final component: if
the name has a suffix (a dot at position `i` with `0 < i <
len(name) - 1`), replace it; otherwise append `".tmp"`. -/
def withSuffixTmp (name : String) : String :=
  match rfindIdx '.' name.data with
  | some i =>
    if 0 < i ∧ i < name.data.length - 1 then String.mk (name.data.take i) ++ ".tmp"
    else name ++ ".tmp"
  | none => name ++ ".tmp"

/-- The temporary path `path.with_suffix(".tmp")` used by `save_jobs`;
it lives in the same directory as `path`. -/
def tmpPath (p : StorePath) : StorePath :=
  { dir := p.dir, name := withSuffixTmp p.name }

/-! ## Record Store (`load_jobs` / `save_jobs`)

`json.load` composed with `Job.from_dict`, and `json.dump` composed
with `Job.to_dict`, are Python-library serialization; they enter the
embedding as an explicit decoder `parse` (failure = the
`JSONDecodeError` that `load_jobs` lets propagate) and encoder `ser`.
`load_jobs` and `save_jobs` add no error handling of their own around
them, exactly as in the source. -/

/-- Embedding of `job_tracker.load_jobs`: an absent file yields the
empty list; otherwise the decoder runs on the file content and its
outcome — success or error — is returned unchanged. -/
def load_jobs (parse : String → Except String (List Job)) (fs : Fs)
    (p : StorePath) : Except String (List Job) :=
  match fs p with
  | none => Except.ok []
  | some content => parse content

/-- First half of `job_tracker.save_jobs`: serialize the records and
write them (flushed and fsynced in the source) to the temporary path.
This is the state at which a crash before the rename is simulated. -/
def save_jobs_writeTmp (ser : List Job → String) (jobs : List Job)
    (p : StorePath) (fs : Fs) : Fs :=
  fsWrite fs (tmpPath p) (ser jobs)

/-- Embedding of `job_tracker.save_jobs`: write the temporary file,
then atomically rename it over the original path. -/
def save_jobs (ser : List Job → String) (jobs : List Job)
    (p : StorePath) (fs : Fs) : Fs :=
  fsReplace (save_jobs_writeTmp ser jobs p fs) (tmpPath p) p

/-! ## Identifier resolution (`job_tracker._find_job`) -/

/-- The `Union[int, str]` identifier argument of `_find_job`. -/
inductive Ident where
  | int (n : Int)
  | str (s : String)
deriving DecidableEq

/-- The id-matching loop of `_find_job`: index of the first record
whose `id` equals `s`. -/
def findIdxById (s : String) : List Job → Option Nat
  | [] => none
  | j :: rest => if j.id = s then some 0 else (findIdxById s rest).map (· + 1)

/-- Embedding of `job_tracker._find_job`.  An `int`, or a string
passing `str.isdigit()`, is treated as a positional index (`int()` on
an isdigit-true string succeeds exactly when all its characters are
ASCII decimal digits — superscript digits pass `isdigit` but make
`int()` raise `ValueError`); any other string is matched by exact
equality against record ids.  The `Except` layer carries the
`ValueError` that escapes `_find_job` in that corner case. -/
def find_job (jobs : List Job) : Ident → Except String (Option Nat)
  | Ident.int n =>
    Except.ok (if 0 ≤ n ∧ n < (jobs.length : Int) then some n.toNat else none)
  | Ident.str s =>
    if pyIsDigitStr s then
      if s.data.all Char.isDigit then
        Except.ok (if decVal s.data < jobs.length then some (decVal s.data) else none)
      else Except.error "ValueError"
    else Except.ok (findIdxById s jobs)

/-! ## CRUD operations -/

/-- The record built by `add_job`: the `Job(...)` constructor call with
a fresh uuid4 `newId`, trimmed role and company, normalized status, and
the timestamp `now` set by `touch()`. -/
def freshJob (newId role company status now : String) : Job :=
  { id := newId, role := pyStrip role, company := pyStrip company,
    status := normalize_status status, updated_at := now }

/-- Embedding of `job_tracker.add_job`: load, build the new record,
append, save, return the record. -/
def add_job (parse : String → Except String (List Job))
    (ser : List Job → String) (newId now : String)
    (role company : String) (status : String := "applied")
    (p : StorePath) (fs : Fs) : Except String (Job × Fs) :=
  match load_jobs parse fs p with
  | Except.error e => Except.error e
  | Except.ok jobs =>
    let job := freshJob newId role company status now
    Except.ok (job, save_jobs ser (jobs ++ [job]) p fs)

/-- Embedding of `job_tracker.remove_job`: load, resolve, and either
return `none` leaving the file system untouched, or pop exactly the
resolved entry, save, and return it.  The `IndexError` branch mirrors
`list.pop` on an invalid index; resolution never produces one. -/
def remove_job (parse : String → Except String (List Job))
    (ser : List Job → String) (ident : Ident)
    (p : StorePath) (fs : Fs) : Except String (Option Job × Fs) :=
  match load_jobs parse fs p with
  | Except.error e => Except.error e
  | Except.ok jobs =>
    match find_job jobs ident with
    | Except.error e => Except.error e
    | Except.ok none => Except.ok (none, fs)
    | Except.ok (some idx) =>
      match jobs[idx]? with
      | none => Except.error "IndexError"
      | some removed =>
        Except.ok (some removed, save_jobs ser (jobs.eraseIdx idx) p fs)

/-- The selective field overwrite of `update_job`: each supplied
argument replaces its field (role and company trimmed, status
normalized), unsupplied fields and the id are untouched, and the
timestamp is refreshed unconditionally by the final `touch()`. -/
def applyUpdate (job : Job) (role? company? status? : Option String)
    (now : String) : Job :=
  let j1 := match role? with
    | some r => { job with role := pyStrip r }
    | none => job
  let j2 := match company? with
    | some c => { j1 with company := pyStrip c }
    | none => j1
  let j3 := match status? with
    | some s => { j2 with status := normalize_status s }
    | none => j2
  { j3 with updated_at := now }

/-- Embedding of `job_tracker.update_job`: load, resolve, and either
return `none` leaving the file system untouched, or overwrite the
supplied fields of exactly the resolved record, save, and return it. -/
def update_job (parse : String → Except String (List Job))
    (ser : List Job → String) (now : String) (ident : Ident)
    (role? company? status? : Option String)
    (p : StorePath) (fs : Fs) : Except String (Option Job × Fs) :=
  match load_jobs parse fs p with
  | Except.error e => Except.error e
  | Except.ok jobs =>
    match find_job jobs ident with
    | Except.error e => Except.error e
    | Except.ok none => Except.ok (none, fs)
    | Except.ok (some idx) =>
      match jobs[idx]? with
      | none => Except.error "IndexError"
      | some job =>
        let job := applyUpdate job role? company? status? now
        Except.ok (some job, save_jobs ser (jobs.set idx job) p fs)

/-- Embedding of the quick-add branch of `shaco_core/main.py`
`handle_command` (after its regex has extracted role, company and the
optional third group): the omitted status defaults to `"todo"`, not
`"applied"`, before `add_job` is called. -/
def mainQuickAdd (parse : String → Except String (List Job))
    (ser : List Job → String) (newId now : String)
    (role company : String) (statusArg : Option String)
    (p : StorePath) (fs : Fs) : Except String (Job × Fs) :=
  add_job parse ser newId now role company (statusArg.getD "todo") p fs

/-- Status stored by an add-operation result, for stating concrete
counterexamples without comparing whole file systems. -/
def addedStatus (r : Except String (Job × Fs)) : Option String :=
  match r with
  | Except.ok (j, _) => some j.status
  | Except.error _ => none

/-! ## Concrete fixtures used by the witnesses -/

/-- The `DATA_FILE` constant of `job_tracker.py`:
`data/job_data.json`. -/
def DATA_FILE : StorePath :=
  { dir := "data", name := "job_data.json" }

/-- A decoder that rejects every content, standing for a store whose
content `json.load` cannot parse. -/
def parseFail : String → Except String (List Job) :=
  fun _ => Except.error "JSONDecodeError"

/-- A fixed sample record. -/
def job1 : Job :=
  { id := "a1b2c3", role := "Dev", company := "Acme",
    status := "applied", updated_at := "t0" }

/-- A record whose id is an all-digit string. -/
def job123 : Job :=
  { id := "123", role := "Dev", company := "Acme",
    status := "applied", updated_at := "t0" }

/-- A decoder that reads every content as the one-record store
`[job1]`. -/
def parseOne : String → Except String (List Job) :=
  fun _ => Except.ok [job1]

/-- A trivial encoder. -/
def serNull : List Job → String :=
  fun _ => "[]"

/-- The empty file system: no file exists. -/
def fsEmpty : Fs := fun _ => none

/-- A file system where the store file exists with undecodable
content. -/
def fsGarbage : Fs :=
  fun q => if q = DATA_FILE then some "garbage" else none

/-! ## Supporting lemmas -/

/-- Every value in the alias table is a member of the enumeration. -/
theorem aliasLookup_mem (t v : String) (h : aliasLookup t = some v) :
    v ∈ DEFAULT_STATUSES := by
  unfold aliasLookup at h
  split_ifs at h <;> (injection h with h; subst h; decide)

/-- `chooseBest` returns its accumulator or an element of the list. -/
theorem chooseBest_some (l : List Cand) : ∀ (acc : Option Cand) (c : Cand),
    chooseBest acc l = some c → acc = some c ∨ c ∈ l := by
  induction l with
  | nil =>
    intro acc c h
    rw [chooseBest] at h
    exact Or.inl h
  | cons x rest ih =>
    intro acc c h
    cases acc with
    | none =>
      rw [chooseBest] at h
      rcases ih (some x) c h with h1 | h1
      · injection h1 with h1; subst h1
        exact Or.inr (List.mem_cons_self x rest)
      · exact Or.inr (List.mem_cons_of_mem x h1)
    | some b =>
      rw [chooseBest] at h
      rcases ih _ c h with h1 | h1
      · by_cases hcb : candBetter x b
        · rw [if_pos hcb] at h1
          injection h1 with h1; subst h1
          exact Or.inr (List.mem_cons_self x rest)
        · rw [if_neg hcb] at h1
          exact Or.inl h1
      · exact Or.inr (List.mem_cons_of_mem x h1)

/-- The fuzzy matcher only ever returns one of its candidates. -/
theorem getCloseMatches1_mem (w r : String) (poss : List String)
    (h : getCloseMatches1 w poss = some r) : r ∈ poss := by
  simp only [getCloseMatches1] at h
  rcases Option.map_eq_some'.mp h with ⟨c, hc, rfl⟩
  rcases chooseBest_some _ none c hc with h1 | h1
  · cases h1
  · rcases List.mem_filterMap.mp h1 with ⟨x, hx, hfx⟩
    split at hfx
    · injection hfx with h2
      subst h2
      exact hx
    · cases hfx

/-- A hit of the id-matching loop is a position inside the list. -/
theorem findIdxById_lt (s : String) : ∀ (l : List Job) (i : Nat),
    findIdxById s l = some i → i < l.length := by
  intro l
  induction l with
  | nil => intro i h; cases h
  | cons j rest ih =>
    intro i h
    rw [findIdxById] at h
    by_cases hid : j.id = s
    · rw [if_pos hid] at h
      injection h with h
      subst h
      simp
    · rw [if_neg hid] at h
      rcases Option.map_eq_some'.mp h with ⟨k, hk, rfl⟩
      simpa using Nat.succ_lt_succ (ih k hk)

/-- The id-matching loop misses exactly when no record has the id. -/
theorem findIdxById_none_iff (s : String) (l : List Job) :
    findIdxById s l = none ↔ ∀ j ∈ l, j.id ≠ s := by
  induction l with
  | nil => simp [findIdxById]
  | cons j rest ih =>
    rw [findIdxById]
    by_cases hid : j.id = s
    · simp [hid]
    · simp [hid, Option.map_eq_none', ih]

/-- A hit of the id-matching loop points at a record with that id. -/
theorem findIdxById_id (s : String) : ∀ (l : List Job) (i : Nat),
    findIdxById s l = some i → ∃ j, l[i]? = some j ∧ j.id = s := by
  intro l
  induction l with
  | nil => intro i h; cases h
  | cons j rest ih =>
    intro i h
    rw [findIdxById] at h
    by_cases hid : j.id = s
    · rw [if_pos hid] at h
      injection h with h
      subst h
      exact ⟨j, by simp, hid⟩
    · rw [if_neg hid] at h
      rcases Option.map_eq_some'.mp h with ⟨k, hk, rfl⟩
      rcases ih k hk with ⟨j', hj', hid'⟩
      exact ⟨j', by simpa using hj', hid'⟩

/-- Any position produced by identifier resolution is inside the
list. -/
theorem find_job_lt (jobs : List Job) (ident : Ident) (i : Nat)
    (h : find_job jobs ident = Except.ok (some i)) : i < jobs.length := by
  cases ident with
  | int n =>
    rw [find_job] at h
    split at h
    · rename_i hcond
      injection h with h
      injection h with h
      subst h
      omega
    · injection h with h
      simp at h
  | str s =>
    rw [find_job] at h
    split at h
    · split at h
      · split at h
        · rename_i hlt
          injection h with h
          injection h with h
          subst h
          exact hlt
        · injection h with h
          simp at h
      · simp at h
    · injection h with h
      exact findIdxById_lt s jobs i h

/-! ## Claims -/

/-- C2: for every input string — empty, mixed case, or a near-miss typo
included — `normalize_status` returns a member of the fixed enumeration
(and, being a total Lean function over a total embedding, it terminates
without raising). -/
theorem normalize_status_closure (s : String) :
    normalize_status s ∈ DEFAULT_STATUSES := by
  simp only [normalize_status]
  split
  · assumption
  · split
    · exact aliasLookup_mem _ _ (by assumption)
    · split
      · exact getCloseMatches1_mem _ _ _ (by assumption)
      · decide

/-- C3: `normalize_status` resolves its trimmed, lowercased input by
exact enumeration match first, then the alias table, then the fuzzy
matcher, and finally the default `"applied"`; whichever stage matches
first fixes the result. -/
theorem normalize_status_precedence (s : String) :
    (pyLower (pyStrip s) ∈ DEFAULT_STATUSES →
      normalize_status s = pyLower (pyStrip s)) ∧
    (pyLower (pyStrip s) ∉ DEFAULT_STATUSES →
      ∀ v, aliasLookup (pyLower (pyStrip s)) = some v →
      normalize_status s = v) ∧
    (pyLower (pyStrip s) ∉ DEFAULT_STATUSES →
      aliasLookup (pyLower (pyStrip s)) = none →
      ∀ c, getCloseMatches1 (pyLower (pyStrip s)) DEFAULT_STATUSES = some c →
      normalize_status s = c) ∧
    (pyLower (pyStrip s) ∉ DEFAULT_STATUSES →
      aliasLookup (pyLower (pyStrip s)) = none →
      getCloseMatches1 (pyLower (pyStrip s)) DEFAULT_STATUSES = none →
      normalize_status s = "applied") := by
  refine ⟨fun h => ?_, fun h v hv => ?_, fun h ha c hc => ?_, fun h ha hc => ?_⟩
  · simp [normalize_status, h]
  · simp [normalize_status, h, hv]
  · simp [normalize_status, h, ha, hc]
  · simp [normalize_status, h, ha, hc]

set_option maxRecDepth 40000 in
/-- Witness for C3: one concrete input per resolution stage — exact
match, alias hit, fuzzy hit on a near-miss typo, and fallback. -/
theorem normalize_status_precedence_witness :
    normalize_status "Applied " = "applied" ∧
    normalize_status "int" = "interviewing" ∧
    normalize_status "interviewng" = "interviewing" ∧
    normalize_status "zzz" = "applied" := by
  refine ⟨?_, ?_, ?_, ?_⟩
  · exact ((normalize_status_precedence "Applied ").1 (by decide)).trans (by decide)
  · exact (normalize_status_precedence "int").2.1 (by decide) "interviewing" (by decide)
  · exact (normalize_status_precedence "interviewng").2.2.1 (by decide) (by decide)
      "interviewing" (by decide)
  · exact (normalize_status_precedence "zzz").2.2.2 (by decide) (by decide) (by decide)

/-- C1: `save_jobs` writes the serialized sequence to a temporary file
in the same directory, then atomically renames it over the original
path; in the intermediate state where the temporary file has been
written but the rename has not happened, the original store file is
byte-for-byte unchanged.  After the rename the original path holds
exactly the serialized records and the temporary file is gone.  The
hypothesis rules out the degenerate path whose own suffix is already
`.tmp`, where `with_suffix` maps the path to itself; the store file
`job_data.json` satisfies it. -/
theorem save_jobs_atomic (ser : List Job → String) (jobs : List Job)
    (p : StorePath) (fs : Fs) (h : tmpPath p ≠ p) :
    (tmpPath p).dir = p.dir ∧
    save_jobs_writeTmp ser jobs p fs (tmpPath p) = some (ser jobs) ∧
    save_jobs_writeTmp ser jobs p fs p = fs p ∧
    save_jobs ser jobs p fs p = some (ser jobs) ∧
    save_jobs ser jobs p fs (tmpPath p) = none := by
  refine ⟨rfl, ?_, ?_, ?_, ?_⟩
  · simp [save_jobs_writeTmp, fsWrite]
  · simp [save_jobs_writeTmp, fsWrite, Ne.symm h]
  · simp [save_jobs, fsReplace, save_jobs_writeTmp, fsWrite]
  · simp [save_jobs, fsReplace, save_jobs_writeTmp, fsWrite, h]

/-- Witness for C1 at the actual store file `data/job_data.json`: the
crash-simulation state leaves the original untouched and the completed
save installs the serialized content. -/
theorem save_jobs_atomic_witness :
    tmpPath DATA_FILE ≠ DATA_FILE ∧
    save_jobs_writeTmp serNull [job1] DATA_FILE fsGarbage DATA_FILE =
      fsGarbage DATA_FILE ∧
    save_jobs serNull [job1] DATA_FILE fsGarbage DATA_FILE =
      some (serNull [job1]) := by
  have h : tmpPath DATA_FILE ≠ DATA_FILE := by decide
  have hmain := save_jobs_atomic serNull [job1] DATA_FILE fsGarbage h
  exact ⟨h, hmain.2.2.1, hmain.2.2.2.1⟩

/-- C6: `load_jobs` returns the empty sequence when the persisted file
is absent, and when the file exists it returns the decoding outcome
unchanged — in particular a decoding error propagates and is never
replaced by an empty sequence. -/
theorem load_jobs_absent_or_corrupt (parse : String → Except String (List Job))
    (fs : Fs) (p : StorePath) :
    (fs p = none → load_jobs parse fs p = Except.ok []) ∧
    (∀ c, fs p = some c → load_jobs parse fs p = parse c) ∧
    (∀ c e, fs p = some c → parse c = Except.error e →
      load_jobs parse fs p = Except.error e ∧
      load_jobs parse fs p ≠ Except.ok []) := by
  refine ⟨fun h => ?_, fun c hc => ?_, fun c e hc he => ⟨?_, ?_⟩⟩
  · simp [load_jobs, h]
  · simp [load_jobs, hc]
  · simp [load_jobs, hc, he]
  · simp [load_jobs, hc, he]

/-- Witness for C6: the absent store file loads as the empty list, and
a present-but-undecodable store file makes the load fail rather than
load as empty. -/
theorem load_jobs_absent_or_corrupt_witness :
    load_jobs parseFail fsEmpty DATA_FILE = Except.ok [] ∧
    load_jobs parseFail fsGarbage DATA_FILE = Except.error "JSONDecodeError" ∧
    load_jobs parseFail fsGarbage DATA_FILE ≠ Except.ok [] := by
  have habs := (load_jobs_absent_or_corrupt parseFail fsEmpty DATA_FILE).1 rfl
  have hcor := (load_jobs_absent_or_corrupt parseFail fsGarbage DATA_FILE).2.2
    "garbage" "JSONDecodeError" (by decide) rfl
  exact ⟨habs, hcor.1, hcor.2⟩

/-- C4: when the identifier resolves to no record, `remove_job` returns
the not-found sentinel and the file system — the persisted store — is
returned untouched, with no save; when it resolves to position `idx`,
`remove_job` removes exactly that entry, saves the shortened sequence,
and returns the removed record. -/
theorem remove_job_not_found_or_found (parse : String → Except String (List Job))
    (ser : List Job → String) (ident : Ident) (p : StorePath) (fs : Fs)
    (jobs : List Job) (hload : load_jobs parse fs p = Except.ok jobs) :
    (find_job jobs ident = Except.ok none →
      remove_job parse ser ident p fs = Except.ok (none, fs)) ∧
    (∀ idx, find_job jobs ident = Except.ok (some idx) →
      ∃ removed, jobs[idx]? = some removed ∧
        remove_job parse ser ident p fs =
          Except.ok (some removed, save_jobs ser (jobs.eraseIdx idx) p fs)) := by
  constructor
  · intro hf
    simp [remove_job, hload, hf]
  · intro idx hf
    have hlt : idx < jobs.length := find_job_lt jobs ident idx hf
    refine ⟨jobs[idx], List.getElem?_eq_getElem hlt, ?_⟩
    simp [remove_job, hload, hf, List.getElem?_eq_getElem hlt]

/-- Witness for C4: removing a missing id from the empty store returns
the sentinel with the store untouched, and removing index `0` from a
one-record store removes exactly that record. -/
theorem remove_job_not_found_or_found_witness :
    remove_job parseFail serNull (Ident.str "nope") DATA_FILE fsEmpty =
      Except.ok (none, fsEmpty) ∧
    remove_job parseOne serNull (Ident.int 0) DATA_FILE fsGarbage =
      Except.ok (some job1, save_jobs serNull ([job1].eraseIdx 0) DATA_FILE fsGarbage) := by
  constructor
  · exact (remove_job_not_found_or_found parseFail serNull (Ident.str "nope")
      DATA_FILE fsEmpty [] rfl).1 rfl
  · rcases (remove_job_not_found_or_found parseOne serNull (Ident.int 0)
      DATA_FILE fsGarbage [job1] rfl).2 0 rfl with ⟨removed, hget, heq⟩
    have hr : removed = job1 := by
      simpa using hget.symm
    rw [hr] at heq
    exact heq

/-- C5 counterexample: through the quick-add branch of
`shaco_core/main.py`, adding a record with the status argument omitted
stores status `"todo"`, not `"applied"` — `handle_command` substitutes
`"todo"` before calling `add_job`. -/
theorem main_quick_add_default_todo_cex :
    addedStatus (mainQuickAdd parseFail serNull "id-1" "t1"
      "Backend Engineer" "Acme" none DATA_FILE fsEmpty) = some "todo" ∧
    ("todo" : String) ≠ "applied" := by
  constructor
  · rfl
  · decide

/-- C5 amended: `add_job` itself (and the `job add` handler of
`job_tracker.py`, which passes `"applied"` when `argv` has no status)
stores status `"applied"` when the status is omitted, with role and
company trimmed, the freshly generated id, and `updated_at` stamped;
the new record is appended at the end and every pre-existing record is
unchanged.  The quick-add branch of `shaco_core/main.py`, however,
substitutes `"todo"` for an omitted status. -/
theorem add_job_default_applied (parse : String → Except String (List Job))
    (ser : List Job → String) (newId now role company : String)
    (p : StorePath) (fs : Fs) (jobs : List Job)
    (hload : load_jobs parse fs p = Except.ok jobs) :
    (freshJob newId role company "applied" now).status = "applied" ∧
    (freshJob newId role company "applied" now).id = newId ∧
    (freshJob newId role company "applied" now).role = pyStrip role ∧
    (freshJob newId role company "applied" now).company = pyStrip company ∧
    (freshJob newId role company "applied" now).updated_at = now ∧
    add_job parse ser newId now role company "applied" p fs =
      Except.ok (freshJob newId role company "applied" now,
        save_jobs ser (jobs ++ [freshJob newId role company "applied" now]) p fs) ∧
    (∀ i, i < jobs.length →
      (jobs ++ [freshJob newId role company "applied" now])[i]? = jobs[i]?) ∧
    (jobs ++ [freshJob newId role company "applied" now])[jobs.length]? =
      some (freshJob newId role company "applied" now) ∧
    mainQuickAdd parse ser newId now role company none p fs =
      add_job parse ser newId now role company "todo" p fs := by
  refine ⟨by simp [freshJob]; decide, rfl, rfl, rfl, rfl, ?_, ?_, ?_, rfl⟩
  · simp [add_job, hload]
  · intro i hi
    exact List.getElem?_append_left hi
  · exact List.getElem?_concat_length jobs _

/-- Witness for C5 amended: one concrete default-status add on the
empty store, with the trimmed role visible in the stored record. -/
theorem add_job_default_applied_witness :
    load_jobs parseFail fsEmpty DATA_FILE = Except.ok [] ∧
    (freshJob "id-1" " Dev " "Acme" "applied" "t1").status = "applied" ∧
    (freshJob "id-1" " Dev " "Acme" "applied" "t1").role = "Dev" ∧
    add_job parseFail serNull "id-1" "t1" " Dev " "Acme" "applied" DATA_FILE fsEmpty =
      Except.ok (freshJob "id-1" " Dev " "Acme" "applied" "t1",
        save_jobs serNull ([] ++ [freshJob "id-1" " Dev " "Acme" "applied" "t1"])
          DATA_FILE fsEmpty) := by
  have h := add_job_default_applied parseFail serNull "id-1" "t1" " Dev " "Acme"
    DATA_FILE fsEmpty [] rfl
  exact ⟨rfl, h.1, (h.2.2.1).trans (by decide), h.2.2.2.2.2.1⟩

/-- C7: when the identifier resolves to the record at position `idx`,
`update_job` overwrites exactly the supplied fields (trimming role and
company, normalizing a supplied status), keeps unsupplied fields and
the id, refreshes `updated_at`, saves, and leaves every other record in
the store unchanged. -/
theorem update_job_selective (parse : String → Except String (List Job))
    (ser : List Job → String) (now : String) (ident : Ident)
    (role? company? status? : Option String) (p : StorePath) (fs : Fs)
    (jobs : List Job) (idx : Nat) (job : Job)
    (hload : load_jobs parse fs p = Except.ok jobs)
    (hfind : find_job jobs ident = Except.ok (some idx))
    (hget : jobs[idx]? = some job) :
    update_job parse ser now ident role? company? status? p fs =
      Except.ok (some (applyUpdate job role? company? status? now),
        save_jobs ser (jobs.set idx (applyUpdate job role? company? status? now)) p fs) ∧
    (applyUpdate job role? company? status? now).id = job.id ∧
    (applyUpdate job role? company? status? now).role =
      (role?.map pyStrip).getD job.role ∧
    (applyUpdate job role? company? status? now).company =
      (company?.map pyStrip).getD job.company ∧
    (applyUpdate job role? company? status? now).status =
      (status?.map normalize_status).getD job.status ∧
    (applyUpdate job role? company? status? now).updated_at = now ∧
    (∀ i, i ≠ idx →
      (jobs.set idx (applyUpdate job role? company? status? now))[i]? = jobs[i]?) := by
  refine ⟨?_, ?_, ?_, ?_, ?_, ?_, ?_⟩
  · simp [update_job, hload, hfind, hget]
  · cases role? <;> cases company? <;> cases status? <;> simp [applyUpdate]
  · cases role? <;> cases company? <;> cases status? <;> simp [applyUpdate]
  · cases role? <;> cases company? <;> cases status? <;> simp [applyUpdate]
  · cases role? <;> cases company? <;> cases status? <;> simp [applyUpdate]
  · cases role? <;> cases company? <;> cases status? <;> simp [applyUpdate]
  · intro i hi
    exact List.getElem?_set_ne (Ne.symm hi)

/-- Witness for C7: updating the only record by index `0` with a new
role and the status alias `"int"`, leaving the company unsupplied. -/
theorem update_job_selective_witness :
    update_job parseOne serNull "t2" (Ident.int 0)
        (some " Senior Dev ") none (some "int") DATA_FILE fsGarbage =
      Except.ok (some (applyUpdate job1 (some " Senior Dev ") none (some "int") "t2"),
        save_jobs serNull
          ([job1].set 0 (applyUpdate job1 (some " Senior Dev ") none (some "int") "t2"))
          DATA_FILE fsGarbage) ∧
    (applyUpdate job1 (some " Senior Dev ") none (some "int") "t2").role = "Senior Dev" ∧
    (applyUpdate job1 (some " Senior Dev ") none (some "int") "t2").company = "Acme" ∧
    (applyUpdate job1 (some " Senior Dev ") none (some "int") "t2").status = "interviewing" ∧
    (applyUpdate job1 (some " Senior Dev ") none (some "int") "t2").id = "a1b2c3" ∧
    (applyUpdate job1 (some " Senior Dev ") none (some "int") "t2").updated_at = "t2" := by
  have h := update_job_selective parseOne serNull "t2" (Ident.int 0)
    (some " Senior Dev ") none (some "int") DATA_FILE fsGarbage [job1] 0 job1
    rfl rfl rfl
  refine ⟨h.1, (h.2.2.1).trans (by decide), (h.2.2.2.1).trans (by decide),
    (h.2.2.2.2.1).trans (by decide), (h.2.1).trans (by decide), h.2.2.2.2.2.1⟩

/-- C10: even with no role, company, or status supplied, `update_job`
still refreshes the resolved record's `updated_at` and rewrites the
store: the save runs and the persisted file receives the serialization
of the sequence with the re-stamped record. -/
theorem update_job_noop_still_saves (parse : String → Except String (List Job))
    (ser : List Job → String) (now : String) (ident : Ident)
    (p : StorePath) (fs : Fs) (jobs : List Job) (idx : Nat) (job : Job)
    (hload : load_jobs parse fs p = Except.ok jobs)
    (hfind : find_job jobs ident = Except.ok (some idx))
    (hget : jobs[idx]? = some job) (htmp : tmpPath p ≠ p) :
    update_job parse ser now ident none none none p fs =
      Except.ok (some { job with updated_at := now },
        save_jobs ser (jobs.set idx { job with updated_at := now }) p fs) ∧
    save_jobs ser (jobs.set idx { job with updated_at := now }) p fs p =
      some (ser (jobs.set idx { job with updated_at := now })) := by
  constructor
  · simp [update_job, hload, hfind, hget, applyUpdate]
  · exact (save_jobs_atomic ser (jobs.set idx { job with updated_at := now })
      p fs htmp).2.2.2.1

/-- Witness for C10: a no-field update of the only record re-stamps it
and rewrites the persisted file. -/
theorem update_job_noop_still_saves_witness :
    update_job parseOne serNull "t3" (Ident.int 0) none none none DATA_FILE fsGarbage =
      Except.ok (some { job1 with updated_at := "t3" },
        save_jobs serNull ([job1].set 0 { job1 with updated_at := "t3" })
          DATA_FILE fsGarbage) ∧
    save_jobs serNull ([job1].set 0 { job1 with updated_at := "t3" })
        DATA_FILE fsGarbage DATA_FILE =
      some (serNull ([job1].set 0 { job1 with updated_at := "t3" })) := by
  exact update_job_noop_still_saves parseOne serNull "t3" (Ident.int 0)
    DATA_FILE fsGarbage [job1] 0 job1 rfl rfl rfl (by decide)

/-- On ASCII strings the Python digit test coincides with the decimal
digit test, so `int()` succeeds whenever `isdigit()` holds. -/
theorem ascii_all_pyDigit_imp_decimal (s : String)
    (hascii : ∀ c ∈ s.data, c.val < 128)
    (h : s.data.all pyIsDigitChar = true) : s.data.all Char.isDigit = true := by
  rw [List.all_eq_true] at h ⊢
  intro c hc
  have hd := h c hc
  have hv := hascii c hc
  simp only [pyIsDigitChar, Bool.or_eq_true, beq_iff_eq] at hd
  rcases hd with ((hd | hd) | hd) | hd
  · exact hd
  · subst hd; exact absurd hv (by decide)
  · subst hd; exact absurd hv (by decide)
  · subst hd; exact absurd hv (by decide)

/-- C8 counterexample: identifier resolution is not raise-free — the
identifier `"²"` passes `str.isdigit()` but `int()` rejects it, so
`_find_job` raises `ValueError` instead of returning a position or
not-found. -/
theorem find_job_raises_cex :
    find_job [] (Ident.str "²") = Except.error "ValueError" := rfl

/-- C8 amended: identifier resolution never raises as long as the
identifier consists of ASCII characters (a character that Python
classifies as a digit but `int()` rejects, such as `"²"`, raises
`ValueError`).  For ASCII identifiers: a digit token is interpreted as
a positional index into the current sequence, not-found when out of
range; any other string is matched by exact equality against each
record's id, not-found when no id matches; an integer identifier is
bounds-checked the same way; and every returned position is valid. -/
theorem find_job_total_ascii (jobs : List Job) (s : String)
    (hascii : ∀ c ∈ s.data, c.val < 128) :
    (∃ r, find_job jobs (Ident.str s) = Except.ok r) ∧
    (pyIsDigitStr s = true →
      find_job jobs (Ident.str s) =
        Except.ok (if decVal s.data < jobs.length then some (decVal s.data) else none)) ∧
    (pyIsDigitStr s = false →
      find_job jobs (Ident.str s) = Except.ok (findIdxById s jobs) ∧
      (findIdxById s jobs = none ↔ ∀ j ∈ jobs, j.id ≠ s) ∧
      (∀ i, findIdxById s jobs = some i → ∃ j, jobs[i]? = some j ∧ j.id = s)) ∧
    (∀ n : Int, find_job jobs (Ident.int n) =
      Except.ok (if 0 ≤ n ∧ n < (jobs.length : Int) then some n.toNat else none)) ∧
    (∀ ident i, find_job jobs ident = Except.ok (some i) → i < jobs.length) := by
  refine ⟨?_, ?_, ?_, fun n => rfl, fun ident i h => find_job_lt jobs ident i h⟩
  · by_cases hd : pyIsDigitStr s
    · have hdec := ascii_all_pyDigit_imp_decimal s hascii
        (by rw [pyIsDigitStr, Bool.and_eq_true] at hd; exact hd.2)
      exact ⟨if decVal s.data < jobs.length then some (decVal s.data) else none,
        by simp [find_job, hd, hdec]⟩
    · exact ⟨findIdxById s jobs, by simp [find_job, hd]⟩
  · intro hd
    have hdec := ascii_all_pyDigit_imp_decimal s hascii
      (by rw [pyIsDigitStr, Bool.and_eq_true] at hd; exact hd.2)
    simp [find_job, hd, hdec]
  · intro hd
    refine ⟨by simp [find_job, hd], findIdxById_none_iff s jobs, findIdxById_id s jobs⟩

/-- Witness for C8 amended: an in-range digit token resolves
positionally, and a non-digit id resolves by id equality. -/
theorem find_job_total_ascii_witness :
    find_job [job1] (Ident.str "0") = Except.ok (some 0) ∧
    find_job [job1] (Ident.str "a1b2c3") = Except.ok (some 0) ∧
    find_job [job1] (Ident.str "zzz") = Except.ok none := by
  have h0 := (find_job_total_ascii [job1] "0" (by decide)).2.1 (by decide)
  have hid := ((find_job_total_ascii [job1] "a1b2c3" (by decide)).2.2.1 (by decide)).1
  have hmiss := ((find_job_total_ascii [job1] "zzz" (by decide)).2.2.1 (by decide)).1
  exact ⟨h0.trans (congrArg Except.ok (by decide)),
    hid.trans (congrArg Except.ok (by decide)),
    hmiss.trans (congrArg Except.ok (by decide))⟩

/-- C9: a nonempty identifier string of decimal digits is always
interpreted as a positional index — the resolution result is an
expression that never consults record ids — and consequently a record
whose id is such a string can never be looked up by its id: any
position other than the numeric value of the token is never
returned, even if the record there carries exactly that id. -/
theorem find_job_digit_never_id (jobs : List Job) (s : String)
    (hne : s ≠ "") (hdig : s.data.all Char.isDigit = true) :
    find_job jobs (Ident.str s) =
      Except.ok (if decVal s.data < jobs.length then some (decVal s.data) else none) ∧
    (∀ i j, jobs[i]? = some j → j.id = s → i ≠ decVal s.data →
      find_job jobs (Ident.str s) ≠ Except.ok (some i)) := by
  have hall : s.data.all pyIsDigitChar = true := by
    rw [List.all_eq_true] at hdig ⊢
    intro c hc
    simp [pyIsDigitChar, hdig c hc]
  have hemp : s.isEmpty = false := by
    rw [Bool.eq_false_iff]
    intro h
    exact hne ((String.isEmpty_iff s).mp h)
  have hpd : pyIsDigitStr s = true := by
    rw [pyIsDigitStr, hemp, hall]
    rfl
  have hmain : find_job jobs (Ident.str s) =
      Except.ok (if decVal s.data < jobs.length then some (decVal s.data) else none) := by
    simp [find_job, hpd, hdig]
  refine ⟨hmain, fun i j hget hid hne' habs => ?_⟩
  rw [hmain] at habs
  injection habs with habs
  split at habs
  · injection habs with habs
    exact hne' habs.symm
  · simp at habs

/-- Witness for C9: the store holds exactly one record whose id is
`"123"`, yet resolving `"123"` is treated as index 123, which is out
of range, so the record is not found by its own id. -/
theorem find_job_digit_never_id_witness :
    find_job [job123] (Ident.str "123") = Except.ok none ∧
    find_job [job123] (Ident.str "123") ≠ Except.ok (some 0) := by
  have h := find_job_digit_never_id [job123] "123" (by decide) (by decide)
  exact ⟨h.1.trans (congrArg Except.ok (by decide)),
    h.2 0 job123 rfl rfl (by decide)⟩

end Shaco
